import Mathlib

/-!
Verification of the EIP metrics aggregation engine (`src/metrics_server.py`).

The Python program is shallowly embedded below: JSON resource snapshots become
structures, Python dicts become association lists with insert-order iteration
and last-write-wins update, timestamps become rationals, and the mutable
collector attributes become an explicit `CollectorState` record threaded
through the cycle functions.  Per-label gauge writes that carry no algorithmic
content (duration gauges, per-node CPIC tallies, capacity estimates) are not
part of any verified claim and are omitted from the outputs record.
-/

namespace EIP

/-- One entry of an EIP resource's `status.items`: fields `egressIP`, `ip`
and `node`, with `""` standing for an absent or null JSON field. -/
structure EipStatusItem where
  egressIP : String
  ip : String
  node : String
deriving DecidableEq, Repr

/-- One EIP (assignment) resource: `metadata.namespace` / `metadata.name`,
the requested addresses `spec.egressIPs`, and the `status.items` bindings. -/
structure EipItem where
  nsName : String
  name : String
  egressIPs : List String
  statusItems : List EipStatusItem
deriving DecidableEq, Repr

/-- The parsed `oc get eip -o json` payload: its `items` array. -/
structure EipData where
  items : List EipItem
deriving DecidableEq, Repr

/-- One entry of a CPIC resource's `status.conditions`. -/
structure CpicCondition where
  reason : String
  lastTransitionTime : String
deriving DecidableEq, Repr

/-- One CPIC (reconciliation) resource: `metadata.name` (the IP address),
`spec.node`, `status.node` (with `""` for absent) and the condition history. -/
structure CpicItem where
  name : String
  specNode : String
  statusNode : String
  conditions : List CpicCondition
deriving DecidableEq, Repr

/-- The parsed `oc get cloudprivateipconfig -o json` payload. -/
structure CpicData where
  items : List CpicItem
deriving DecidableEq, Repr

/-- Python-dict update `m[k] = v`: replaces the value in place when the key
exists (keeping its original position, as CPython dicts do), appends
otherwise. -/
def dictInsert {α : Type} (m : List (String × α)) (k : String) (v : α) :
    List (String × α) :=
  if m.any (fun p => p.1 = k) then
    m.map (fun p => if p.1 = k then (k, v) else p)
  else m ++ [(k, v)]

/-- Python-dict lookup `m.get(k)`. -/
def dictGet {α : Type} (m : List (String × α)) (k : String) : Option α :=
  (m.find? (fun p => p.1 = k)).map Prod.snd

/-- Python-set insert `s.add(x)`. -/
def setAdd (s : List String) (x : String) : List String :=
  if x ∈ s then s else s ++ [x]

theorem find?_map_replace {α : Type} (m : List (String × α)) (k k' : String)
    (v : α) (h : k' ≠ k) :
    (m.map (fun p => if p.1 = k then (k, v) else p)).find?
        (fun p => p.1 = k')
      = m.find? (fun p => p.1 = k') := by
  induction m with
  | nil => rfl
  | cons p rest ih =>
      simp only [List.map_cons]
      by_cases hp : p.1 = k
      · rw [if_pos hp]
        rw [List.find?_cons_of_neg _
          (by simp only [decide_eq_true_eq]; exact fun hk => h hk.symm)]
        rw [List.find?_cons_of_neg _
          (by simp only [decide_eq_true_eq]; rw [hp]; exact fun hk => h hk.symm)]
        exact ih
      · rw [if_neg hp]
        by_cases hq : p.1 = k'
        · rw [List.find?_cons_of_pos _ (by simpa using hq),
              List.find?_cons_of_pos _ (by simpa using hq)]
        · rw [List.find?_cons_of_neg _ (by simpa using hq),
              List.find?_cons_of_neg _ (by simpa using hq)]
          exact ih

theorem dictGet_dictInsert_ne {α : Type} (m : List (String × α)) (k k' : String)
    (v : α) (h : k' ≠ k) : dictGet (dictInsert m k v) k' = dictGet m k' := by
  unfold dictInsert dictGet
  by_cases hm : m.any (fun p => p.1 = k)
  · rw [if_pos hm]
    rw [find?_map_replace m k k' v h]
  · rw [if_neg hm, List.find?_append]
    have hsingle : ([(k, v)].find? (fun p => p.1 = k')) = none := by
      rw [List.find?_cons_of_neg _
        (by simp only [decide_eq_true_eq]; exact fun hk => h hk.symm)]
      rfl
    rw [hsingle]
    cases hfind : m.find? (fun p => decide (p.1 = k')) <;> rfl

theorem dictGet_dictInsert_self {α : Type} (m : List (String × α)) (k : String)
    (v : α) : dictGet (dictInsert m k v) k = some v := by
  unfold dictInsert dictGet
  by_cases hm : m.any (fun p => p.1 = k)
  · rw [if_pos hm]
    induction m with
    | nil => simp at hm
    | cons p rest ih =>
        simp only [List.map_cons]
        by_cases hp : p.1 = k
        · rw [if_pos hp, List.find?_cons_of_pos _ (by simp)]
          rfl
        · have hrest : rest.any (fun q => q.1 = k) = true := by
            simpa [List.any_cons, hp] using hm
          rw [if_neg hp, List.find?_cons_of_neg _ (by simpa using hp)]
          exact ih hrest
  · rw [if_neg hm, List.find?_append]
    have hnone : m.find? (fun p => decide (p.1 = k)) = none := by
      rw [List.find?_eq_none]
      intro p hp
      simp only [decide_eq_true_eq]
      intro hc
      exact hm (List.any_eq_true.mpr ⟨p, hp, by simpa using hc⟩)
    rw [hnone, List.find?_cons_of_pos _ (by simp)]
    rfl

theorem dictGet_eq_none_iff {α : Type} (m : List (String × α)) (k : String) :
    dictGet m k = none ↔ ∀ p ∈ m, p.1 ≠ k := by
  unfold dictGet
  cases hfind : m.find? (fun p => decide (p.1 = k)) with
  | none =>
      constructor
      · intro _ p hp
        have := List.find?_eq_none.mp hfind p hp
        simpa using this
      · intro _
        rfl
  | some a =>
      constructor
      · intro hc
        exact absurd hc (by simp)
      · intro hall
        have h1 : a.1 = k := by simpa using List.find?_some hfind
        exact absurd h1 (hall a (List.mem_of_find?_eq_some hfind))

/-- Assigned bindings of one EIP resource: entries of `status.items` whose
`node` field exists and is non-empty (`process_all_metrics_optimized`,
the `status_item.get('node') is not None and != ''` test). -/
def assignedOfItem (item : EipItem) : ℕ :=
  (item.statusItems.filter (fun s => s.node ≠ "")).length

/-- Global configured count: total size of `spec.egressIPs` across resources. -/
def configuredCount (e : EipData) : ℕ :=
  (e.items.map (fun item => item.egressIPs.length)).sum

/-- Global assigned count: total `status.items` entries with a non-empty node. -/
def assignedCount (e : EipData) : ℕ :=
  (e.items.map assignedOfItem).sum

/-- Published utilization gauge: `assigned / configured * 100` when
`configured > 0`, else the guarded default `0`. -/
def utilizationPercent (e : EipData) : ℚ :=
  if 0 < configuredCount e then
    ((assignedCount e : ℚ) / (configuredCount e : ℚ)) * 100
  else 0

/-- The latest condition of a CPIC resource: `conditions[-1]`. -/
def latestCondition (item : CpicItem) : Option CpicCondition :=
  item.conditions.getLast?

/-- The immediately preceding condition: `conditions[-2]`. -/
def previousCondition (item : CpicItem) : Option CpicCondition :=
  item.conditions.dropLast.getLast?

/-- The recovery test of the CPIC loop: latest reason is
`CloudResponseSuccess`, there is more than one condition, and the previous
reason is `CloudResponseError`. -/
def isRecoveryItem (item : CpicItem) : Bool :=
  match latestCondition item with
  | some lc =>
      lc.reason == "CloudResponseSuccess" &&
      decide (1 < item.conditions.length) &&
      (match previousCondition item with
       | some pc => pc.reason == "CloudResponseError"
       | none => false)
  | none => false

/-- CPIC items that append a recovery event this cycle, in payload order. -/
def recoveryItems (c : CpicData) : List CpicItem :=
  c.items.filter isRecoveryItem

/-- Rollup of CPIC resources by latest condition reason:
(success, pending, error) tallies. -/
def cpicStatusCounts (c : CpicData) : ℕ × ℕ × ℕ :=
  c.items.foldl
    (fun acc item =>
      match latestCondition item with
      | some lc =>
          if lc.reason = "CloudResponseSuccess" then (acc.1 + 1, acc.2.1, acc.2.2)
          else if lc.reason = "CloudResponsePending" then (acc.1, acc.2.1 + 1, acc.2.2)
          else if lc.reason = "CloudResponseError" then (acc.1, acc.2.1, acc.2.2 + 1)
          else acc
      | none => acc)
    (0, 0, 0)

/-- Per-node assigned-IP tally: start every eligible node at 0, then walk all
`status.items` and increment a node's entry when it is a key of the dict
(`if node in node_eip_counts`). -/
def nodeEipCounts (e : EipData) (eipNodes : List String) :
    List (String × ℕ) :=
  let init := eipNodes.foldl (fun m n => dictInsert m n 0) []
  e.items.foldl
    (fun m item =>
      item.statusItems.foldl
        (fun m s =>
          match dictGet m s.node with
          | some c => dictInsert m s.node (c + 1)
          | none => m)
        m)
    init

/-- Positional Gini summand: walking the sorted counts from position `i`,
accumulate `(2*(i+1) - n - 1) * count` (`calculate_distribution_metrics`). -/
def giniTermSum (n : ℕ) : ℕ → List ℕ → ℤ
  | _, [] => 0
  | i, c :: cs => (2 * ((i : ℤ) + 1) - (n : ℤ) - 1) * (c : ℤ) +
      giniTermSum n (i + 1) cs

/-- The Gini coefficient written by `calculate_distribution_metrics`:
`none` models the early return (empty node dict leaves the gauge untouched);
otherwise sort ascending, divide the positional sum by `n * total`, and take
the absolute value; `0` when the total is zero. -/
def calculateDistributionGini (counts : List ℕ) : Option ℚ :=
  if counts.isEmpty then none
  else if 0 < counts.sum then
    let n := counts.length
    let sortedCounts := counts.insertionSort (· ≤ ·)
    let giniSum := giniTermSum n 0 sortedCounts
    let totalSum := counts.sum
    if 0 < totalSum then
      some |((giniSum : ℚ) / ((n : ℚ) * (totalSum : ℚ)))|
    else some 0
  else some 0

/-- Qualified resource name `namespace/name` used by the mismatch and
criticality detectors. -/
def resourceNameOf (item : EipItem) : String :=
  item.nsName ++ "/" ++ item.name

/-- IP of a status entry: `status_item.get('egressIP') or
status_item.get('ip', '')`. -/
def ipOfStatus (s : EipStatusItem) : String :=
  if s.egressIP ≠ "" then s.egressIP else s.ip

/-- The node recorded for a CPIC resource: `status.node or spec.node`. -/
def cpicNodeOf (item : CpicItem) : String :=
  if item.statusNode ≠ "" then item.statusNode else item.specNode

/-- One step of building the CPIC IP-to-node map. -/
def cpicIpToNodeStep (m : List (String × String)) (item : CpicItem) :
    List (String × String) :=
  if item.name ≠ "" then
    if cpicNodeOf item ≠ "" then dictInsert m item.name (cpicNodeOf item)
    else m
  else m

/-- CPIC IP-to-node map: keyed by `metadata.name`, preferring `status.node`
over `spec.node`, skipping entries without a name or without any node. -/
def cpicIpToNode (c : CpicData) : List (String × String) :=
  c.items.foldl cpicIpToNodeStep []

/-- Maps built from EIP `status.items`: IP-to-node, IP-to-resource, and the
per-resource assigned-binding tally (`detect_mismatches`, first EIP loop). -/
def buildEipMaps (e : EipData) :
    List (String × String) × List (String × String) × List (String × ℕ) :=
  e.items.foldl
    (fun acc item =>
      let rname := resourceNameOf item
      let inner :=
        item.statusItems.foldl
          (fun (acc2 : List (String × String) × List (String × String) × ℕ) s =>
            let ip := ipOfStatus s
            if ip ≠ "" && s.node ≠ "" then
              (dictInsert acc2.1 ip s.node,
               dictInsert acc2.2.1 ip rname,
               acc2.2.2 + 1)
            else acc2)
          (acc.1, acc.2.1, 0)
      (inner.1, inner.2.1, dictInsert acc.2.2 rname inner.2.2))
    ([], [], [])

/-- Fallback IP-to-resource map built from `spec.egressIPs`
(`detect_mismatches`, second EIP loop). -/
def ipToResourceFromSpec (e : EipData) : List (String × String) :=
  e.items.foldl
    (fun m item =>
      item.egressIPs.foldl (fun m ip => dictInsert m ip (resourceNameOf item)) m)
    []

/-- The mismatch report assembled by `detect_mismatches`. -/
structure Mismatches where
  total : ℕ
  nodeMismatch : ℕ
  missingInEip : ℕ
  missingInCpic : ℕ
  mismatchByResource : List (String × List String)
  mismatchByIp : List (String × String)
deriving DecidableEq, Repr

/-- Register an IP under a resource in `mismatch_by_resource` (create the
set on first use, then add). -/
def addResourceIp (m : List (String × List String)) (r ip : String) :
    List (String × List String) :=
  match dictGet m r with
  | none => dictInsert m r (setAdd [] ip)
  | some s => dictInsert m r (setAdd s ip)

/-- The owning resource resolved for a CPIC-known IP: the status-binding
owner when present, else the `spec.egressIPs` owner, else `"unknown"`. -/
def resolvedResource (eipIpToRes specMap : List (String × String))
    (ip : String) : String :=
  match dictGet eipIpToRes ip with
  | some r => r
  | none => (dictGet specMap ip).getD "unknown"

/-- Body of the CPIC-side detection loop for one `(ip, cpic_node)` entry. -/
def detectStep (eipIpToNode eipIpToRes specMap : List (String × String))
    (resCounts : List (String × ℕ)) (availableNodes : ℕ)
    (mm : Mismatches) (p : String × String) : Mismatches :=
  match dictGet eipIpToNode p.1 with
  | some eipNode =>
      if eipNode ≠ p.2 then
        { mm with
          total := mm.total + 1
          nodeMismatch := mm.nodeMismatch + 1
          mismatchByIp := dictInsert mm.mismatchByIp p.1 "node_mismatch"
          mismatchByResource := addResourceIp mm.mismatchByResource
            (resolvedResource eipIpToRes specMap p.1) p.1 }
      else mm
  | none =>
      if resolvedResource eipIpToRes specMap p.1 ≠ "unknown" then
        if (dictGet resCounts
              (resolvedResource eipIpToRes specMap p.1)).getD 0
            < availableNodes then
          { mm with
            total := mm.total + 1
            missingInEip := mm.missingInEip + 1
            mismatchByIp := dictInsert mm.mismatchByIp p.1 "missing_in_eip"
            mismatchByResource := addResourceIp mm.mismatchByResource
              (resolvedResource eipIpToRes specMap p.1) p.1 }
        else mm
      else mm

/-- Body of the EIP-side detection loop for one `(ip, eip_node)` entry
(IPs bound in EIP status but absent from CPIC). -/
def missingCpicStep (cpicMap : List (String × String))
    (eipIpToRes : List (String × String)) (mm : Mismatches)
    (p : String × String) : Mismatches :=
  if dictGet cpicMap p.1 = none then
    { mm with
      total := mm.total + 1
      missingInCpic := mm.missingInCpic + 1
      mismatchByIp := dictInsert mm.mismatchByIp p.1 "missing_in_cpic"
      mismatchByResource :=
        addResourceIp mm.mismatchByResource
          ((dictGet eipIpToRes p.1).getD "unknown") p.1 }
  else mm

/-- `detect_mismatches(eip_data, cpic_data, available_nodes)`. -/
def detectMismatches (e : EipData) (c : CpicData) (availableNodes : ℕ) :
    Mismatches :=
  let cpicMap := cpicIpToNode c
  let maps := buildEipMaps e
  let eipIpToNode := maps.1
  let eipIpToRes := maps.2.1
  let resCounts := maps.2.2
  let specMap := ipToResourceFromSpec e
  let mm0 : Mismatches := ⟨0, 0, 0, 0, [], []⟩
  let mm1 := cpicMap.foldl
    (detectStep eipIpToNode eipIpToRes specMap resCounts availableNodes) mm0
  eipIpToNode.foldl (missingCpicStep cpicMap eipIpToRes) mm1

/-- `calculate_overcommitted`: per resource, requested IPs beyond the
eligible node count accumulate into a cluster-wide total. -/
def calculateOvercommitted (e : EipData) (availableNodes : ℕ) : ℕ :=
  e.items.foldl
    (fun acc item =>
      if availableNodes < item.egressIPs.length then
        acc + (item.egressIPs.length - availableNodes)
      else acc)
    0

/-- The scan of one resource's `status.items` performed by
`detect_critical_eips`: returns `(all_have_mismatches, has_any_assignment)`,
breaking out (as the Python loop does) at the first node-bound IP without a
mismatch. -/
def criticalScan (mm : Mismatches) : List EipStatusItem → Bool × Bool
  | [] => (true, false)
  | s :: rest =>
      if s.node ≠ "" then
        if dictGet mm.mismatchByIp (ipOfStatus s) = none then (false, true)
        else ((criticalScan mm rest).1, true)
      else criticalScan mm rest

/-- Whether one EIP resource is counted by `detect_critical_eips`. -/
def isCriticalItem (mm : Mismatches) (item : EipItem) : Bool :=
  if item.statusItems.isEmpty then true
  else
    let scan := criticalScan mm item.statusItems
    (scan.2 && scan.1) || !scan.2

/-- `detect_critical_eips`: count of resources with no working assignment. -/
def detectCriticalEips (e : EipData) (mm : Mismatches) : ℕ :=
  e.items.foldl (fun acc item => if isCriticalItem mm item then acc + 1 else acc) 0

/-- An entry of `eip_changes_history`. -/
structure ChangeEvent where
  timestamp : ℚ
  change : ℤ
deriving DecidableEq, Repr

/-- An entry of `cpic_recoveries_history`. -/
structure RecoveryEvent where
  timestamp : ℚ
  resource : String
deriving DecidableEq, Repr

/-- The mutable collector attributes threaded across cycles.
`lastGiniCoefficient` models the `last_gini_coefficient` attribute probed by
`hasattr` in `calculate_health_scores`: `none` means the attribute does not
exist.  No statement in `metrics_server.py` ever assigns it. -/
structure CollectorState where
  previousEipAssigned : Option ℤ
  eipChangesHistory : List ChangeEvent
  cpicRecoveriesHistory : List RecoveryEvent
  apiPerformanceHistory : List (String × List ℚ)
  lastGiniCoefficient : Option ℚ
deriving DecidableEq, Repr

/-- The collector as constructed by `__init__`. -/
def initialState : CollectorState :=
  { previousEipAssigned := none
    eipChangesHistory := []
    cpicRecoveriesHistory := []
    apiPerformanceHistory :=
      [("eip_get", []), ("cpic_get", []), ("nodes_get", []), ("bulk_get", [])]
    lastGiniCoefficient := none }

/-- `cleanup_old_data`: age-evict both trend windows (strictly younger than
3600 s survives) and trim each API-performance series to its last 50
entries. -/
def cleanupOldData (st : CollectorState) (currentTime : ℚ) : CollectorState :=
  { st with
    eipChangesHistory :=
      st.eipChangesHistory.filter (fun ev => currentTime - ev.timestamp < 3600)
    cpicRecoveriesHistory :=
      st.cpicRecoveriesHistory.filter
        (fun r => currentTime - r.timestamp < 3600)
    apiPerformanceHistory :=
      st.apiPerformanceHistory.map
        (fun p =>
          if 50 < p.2.length then (p.1, p.2.drop (p.2.length - 50)) else p) }

/-- `calculate_health_scores`: the 0–100 health heuristic and the
change-frequency stability score.  The CPIC tallies are accepted and ignored
exactly as in the source.  The fairness-bonus branch fires only when the
`last_gini_coefficient` attribute exists. -/
def calculateHealthScores (st : CollectorState)
    (totalEips assignedEips : ℕ) (_cpicSuccess _cpicError _cpicPending : ℕ) :
    ℚ × ℚ :=
  let eipScore : ℚ :=
    if 0 < totalEips then
      let assignmentPart : ℚ := (assignedEips : ℚ) / (totalEips : ℚ)
      let score := assignmentPart * 50
      let score := score -
        (((totalEips : ℚ) - (assignedEips : ℚ)) / (totalEips : ℚ)) * 20
      let score :=
        if 8 / 10 < assignmentPart then score + 20
        else if 6 / 10 < assignmentPart then score + 10
        else score
      let score :=
        match st.lastGiniCoefficient with
        | some g =>
            if g < 1 / 10 then score + 15
            else if g < 3 / 10 then score + 10
            else score
        | none => score
      max 0 (min 100 score)
    else 0
  let stabilityScore : ℚ :=
    if 0 < st.eipChangesHistory.length then
      100 - min 50 ((st.eipChangesHistory.length : ℚ) * 2)
    else 100
  (eipScore, max 0 stabilityScore)

/-- Resource name of a CPIC item: `metadata.get('name', 'unknown')`. -/
def cpicResourceName (item : CpicItem) : String :=
  if item.name = "" then "unknown" else item.name

/-- The metric values published by one aggregation pass. -/
structure MetricsOut where
  eipsConfigured : ℕ
  eipsAssigned : ℕ
  eipsUnassigned : ℤ
  eipUtilizationPercent : ℚ
  cpicSuccessCount : ℕ
  cpicPendingCount : ℕ
  cpicErrorCount : ℕ
  nodeCounts : List (String × ℕ)
  giniOut : Option ℚ
  mismatches : Mismatches
  malfunctioningCount : ℕ
  overcommittedIps : ℕ
  criticalCount : ℕ
  healthScore : ℚ
  stabilityScore : ℚ
  changesLastHour : ℤ
  assignmentRate : ℚ
  recoveriesLastHour : ℕ
  nodeAvailable : ℕ
deriving DecidableEq, Repr

/-- `process_all_metrics_optimized(eip_data, cpic_data, eip_nodes)` at wall
clock `currentTime`: the single-pass aggregation.  Returns the updated
collector state and the published metric values, computed in source order
(health scores read the pre-append change history; the recovery window is
appended to during the CPIC pass and re-filtered at the end). -/
def processAllMetricsOptimized (st : CollectorState) (e : EipData)
    (c : CpicData) (eipNodes : List String) (currentTime : ℚ) :
    CollectorState × MetricsOut :=
  let configured := configuredCount e
  let assigned := assignedCount e
  let unassigned : ℤ := (configured : ℤ) - (assigned : ℤ)
  let utilization := utilizationPercent e
  let cpicCounts := cpicStatusCounts c
  let recHistAppended :=
    st.cpicRecoveriesHistory ++
      (recoveryItems c).map
        (fun item => RecoveryEvent.mk currentTime (cpicResourceName item))
  let counts := nodeEipCounts e eipNodes
  let giniOut := calculateDistributionGini (counts.map Prod.snd)
  let availableNodes := eipNodes.length
  let mm := detectMismatches e c availableNodes
  let malfunctioning := mm.mismatchByResource.length
  let overcommitted := calculateOvercommitted e availableNodes
  let critical := detectCriticalEips e mm
  let scores := calculateHealthScores st configured assigned
    cpicCounts.1 cpicCounts.2.2 cpicCounts.2.1
  let changesAfterAppend :=
    match st.previousEipAssigned with
    | some prev =>
        let eipChange : ℤ := |(assigned : ℤ) - prev|
        if 0 < eipChange then
          st.eipChangesHistory ++ [ChangeEvent.mk currentTime eipChange]
        else st.eipChangesHistory
    | none => st.eipChangesHistory
  let hourAgo := currentTime - 3600
  let recentChanges :=
    changesAfterAppend.filter (fun ev => hourAgo < ev.timestamp)
  let changesLastHour : ℤ := (recentChanges.map ChangeEvent.change).sum
  let assignmentRate : ℚ :=
    match recentChanges with
    | [] => 0
    | ev :: _ =>
        let timeSpanMinutes := (currentTime - ev.timestamp) / 60
        if 0 < timeSpanMinutes then (changesLastHour : ℚ) / timeSpanMinutes
        else 0
  let recentRecoveries :=
    recHistAppended.filter (fun r => hourAgo < r.timestamp)
  ({ st with
      previousEipAssigned := some (assigned : ℤ)
      eipChangesHistory := recentChanges
      cpicRecoveriesHistory := recentRecoveries },
   { eipsConfigured := configured
     eipsAssigned := assigned
     eipsUnassigned := unassigned
     eipUtilizationPercent := utilization
     cpicSuccessCount := cpicCounts.1
     cpicPendingCount := cpicCounts.2.1
     cpicErrorCount := cpicCounts.2.2
     nodeCounts := counts
     giniOut := giniOut
     mismatches := mm
     malfunctioningCount := malfunctioning
     overcommittedIps := overcommitted
     criticalCount := critical
     healthScore := scores.1
     stabilityScore := scores.2
     changesLastHour := changesLastHour
     assignmentRate := assignmentRate
     recoveriesLastHour := recentRecoveries.length
     nodeAvailable := eipNodes.length })

/-- `get_eip_nodes`: the node fetch.  `fetch = none` is a failed
`oc get nodes` call; `some l` is the parsed (possibly empty) name list.
Returns the success flag and the resulting `self.eip_nodes` (unchanged on
command failure, `[]` on an empty listing, which is reported as failure). -/
def getEipNodes (prevNodes : List String) (fetch : Option (List String)) :
    Bool × List String :=
  match fetch with
  | none => (false, prevNodes)
  | some l => if l.isEmpty then (false, []) else (true, l)

/-- Node resolution inside `collect_all_data_optimized`: a truthy (non-empty)
fresh cache entry is reused, otherwise `get_eip_nodes` runs. -/
def resolveNodes (prevNodes : List String) (cachedNodes : Option (List String))
    (nodesFetch : Option (List String)) : Bool × List String :=
  match cachedNodes with
  | some l => if l.isEmpty then getEipNodes prevNodes nodesFetch else (true, l)
  | none => getEipNodes prevNodes nodesFetch

/-- `collect_all_data_optimized`.  The two payload fetches are modelled at
the parse boundary: `none` is a failed command (timeout / non-zero exit),
`some none` a payload `json.loads` rejects, `some (some d)` a parsed
document.  Any failure makes the function return the `(None, None, None)`
triple (here `none`); the second component is `self.eip_nodes` afterwards. -/
def collectAllDataOptimized (prevNodes : List String)
    (cachedNodes : Option (List String)) (nodesFetch : Option (List String))
    (eipFetch : Option (Option EipData)) (cpicFetch : Option (Option CpicData)) :
    Option (EipData × CpicData × List String) × List String :=
  let resolved := resolveNodes prevNodes cachedNodes nodesFetch
  if !resolved.1 then (none, resolved.2)
  else
    match eipFetch with
    | none => (none, resolved.2)
    | some eipParse =>
        match cpicFetch with
        | none => (none, resolved.2)
        | some cpicParse =>
            match eipParse, cpicParse with
            | some e, some c => (some (e, c, resolved.2), resolved.2)
            | _, _ => (none, resolved.2)

/-- `collect_metrics` at cleanup time `tClean` and processing time `tProc`:
clean the histories, collect, and either abort the cycle (`false`, with the
scrape-error counter incremented) or run the aggregation pass.  The
`all([eip_data, cpic_data, eip_nodes])` truthiness gate is the emptiness
test on the node list. -/
def collectMetrics (st : CollectorState) (prevNodes : List String)
    (cachedNodes : Option (List String)) (nodesFetch : Option (List String))
    (eipFetch : Option (Option EipData)) (cpicFetch : Option (Option CpicData))
    (tClean tProc : ℚ) : Bool × CollectorState × Option MetricsOut :=
  let st1 := cleanupOldData st tClean
  match collectAllDataOptimized prevNodes cachedNodes nodesFetch eipFetch
      cpicFetch with
  | (none, _) => (false, st1, none)
  | (some (e, c, ns), _) =>
      if ns.isEmpty then (false, st1, none)
      else
        let result := processAllMetricsOptimized st1 e c ns tProc
        (true, result.1, some result.2)

/-- The collect-aggregate loop restricted to the recovery bookkeeping: `m`
successive successful cycles over identical inputs, all stamped at the same
wall-clock instant `t` (cleanup and processing included, as in
`collect_metrics`). -/
def iterateCycles (st : CollectorState) (e : EipData) (c : CpicData)
    (eipNodes : List String) (t : ℚ) : ℕ → CollectorState
  | 0 => st
  | m + 1 =>
      (processAllMetricsOptimized
        (cleanupOldData (iterateCycles st e c eipNodes t m) t) e c eipNodes t).1

/-- The published utilization gauge of one pass, read off the output record. -/
theorem processAll_utilization (st : CollectorState) (e : EipData)
    (c : CpicData) (nodes : List String) (t : ℚ) :
    (processAllMetricsOptimized st e c nodes t).2.eipUtilizationPercent
      = utilizationPercent e := rfl

/-- The published Gini value of one pass, read off the output record. -/
theorem processAll_giniOut (st : CollectorState) (e : EipData) (c : CpicData)
    (nodes : List String) (t : ℚ) :
    (processAllMetricsOptimized st e c nodes t).2.giniOut
      = calculateDistributionGini ((nodeEipCounts e nodes).map Prod.snd) := rfl

/-- The published health score of one pass, read off the output record. -/
theorem processAll_healthScore (st : CollectorState) (e : EipData)
    (c : CpicData) (nodes : List String) (t : ℚ) :
    (processAllMetricsOptimized st e c nodes t).2.healthScore
      = (calculateHealthScores st (configuredCount e) (assignedCount e)
          (cpicStatusCounts c).1 (cpicStatusCounts c).2.2
          (cpicStatusCounts c).2.1).1 := rfl

/-! ### Claim C1 — collection failure handling -/

/-- C1 counterexample input: the node listing succeeds and the CPIC payload
fetches and parses, but the EIP fetch fails. -/
def c1CpicParsed : CpicData := CpicData.mk []

/-- C1: the claim says a failure on one input degrades that input alone to an
empty collection and collect still returns three well-formed collections.
At this input the EIP fetch alone fails, yet `collect_all_data_optimized`
returns the `(None, None, None)` triple — the successfully fetched CPIC data
and node list are discarded — and `collect_metrics` aborts the cycle with an
error count.  This refutes the claim as stated. -/
theorem claim_C1_counterexample :
    (collectAllDataOptimized [] none (some ["nodeA"]) none
        (some (some c1CpicParsed))).1 = none ∧
    (collectMetrics initialState [] none (some ["nodeA"]) none
        (some (some c1CpicParsed)) 0 0).1 = false ∧
    (collectMetrics initialState [] none (some ["nodeA"]) none
        (some (some c1CpicParsed)) 0 0).2.2 = none := by
  exact ⟨rfl, rfl, rfl⟩

/-- C1 amended: collection is all-or-nothing.  `collect_all_data_optimized`
returns data exactly when the node list resolves successfully (to a non-empty
list) and both payloads fetch and parse; any single failure yields no data
for all three inputs at once, with no per-input degradation to an empty
collection. -/
theorem claim_C1_amended :
    ∀ (prevNodes : List String) (cachedNodes nodesFetch : Option (List String))
      (eipFetch : Option (Option EipData))
      (cpicFetch : Option (Option CpicData)) (e : EipData) (c : CpicData)
      (n : List String),
      (collectAllDataOptimized prevNodes cachedNodes nodesFetch eipFetch
            cpicFetch).1 = some (e, c, n) ↔
        (resolveNodes prevNodes cachedNodes nodesFetch = (true, n) ∧
         eipFetch = some (some e) ∧ cpicFetch = some (some c)) := by
  intro prevNodes cachedNodes nodesFetch eipFetch cpicFetch e c n
  unfold collectAllDataOptimized
  rcases hres : resolveNodes prevNodes cachedNodes nodesFetch with ⟨ok, nodes⟩
  cases ok with
  | false => simp
  | true =>
      cases eipFetch with
      | none => simp
      | some eipParse =>
          cases cpicFetch with
          | none => cases eipParse <;> simp
          | some cpicParse =>
              cases eipParse with
              | none => cases cpicParse <;> simp
              | some e' =>
                  cases cpicParse with
                  | none => simp
                  | some c' =>
                      simp only [Bool.not_true, Bool.false_eq_true, if_false,
                        Option.some.injEq, Prod.mk.injEq, true_and]
                      tauto

/-! ### Claim C5 — empty eligible node set -/

/-- C5: the claim says an empty eligible node set is a legitimate input and
the cycle still completes with well-formed empty collections.  In the code a
node listing that parses to the empty list makes `get_eip_nodes` report
failure, `collect_all_data_optimized` return the `(None, None, None)` triple,
and `collect_metrics` abort the cycle (incrementing the scrape-error
counter), even though both payloads fetched and parsed. -/
theorem claim_C5_counterexample :
    getEipNodes [] (some []) = (false, []) ∧
    (collectAllDataOptimized [] none (some []) (some (some (EipData.mk [])))
        (some (some (CpicData.mk [])))).1 = none ∧
    (collectMetrics initialState [] none (some [])
        (some (some (EipData.mk []))) (some (some (CpicData.mk []))) 0 0).1
      = false := by
  exact ⟨rfl, rfl, rfl⟩

/-- C5 amended: an empty eligible node set is treated as a fetch failure, for
every collector state and payload outcome: the node fetch reports failure,
collection returns no data, and the cycle aborts without publishing. -/
theorem claim_C5_amended :
    ∀ (st : CollectorState) (prevNodes : List String)
      (eipFetch : Option (Option EipData))
      (cpicFetch : Option (Option CpicData)) (tClean tProc : ℚ),
      getEipNodes prevNodes (some []) = (false, []) ∧
      (collectAllDataOptimized prevNodes none (some []) eipFetch cpicFetch).1
        = none ∧
      (collectMetrics st prevNodes none (some []) eipFetch cpicFetch tClean
          tProc).1 = false ∧
      (collectMetrics st prevNodes none (some []) eipFetch cpicFetch tClean
          tProc).2.2 = none := by
  intro st prevNodes eipFetch cpicFetch tClean tProc
  exact ⟨rfl, rfl, rfl, rfl⟩

/-! ### Claim C2 — trend-window cleanup bounds -/

/-- C2 counterexample state: both trend windows hold 51 fresh entries. -/
def c2OverfullState : CollectorState :=
  { previousEipAssigned := none
    eipChangesHistory := List.replicate 51 (ChangeEvent.mk 0 1)
    cpicRecoveriesHistory := List.replicate 51 (RecoveryEvent.mk 0 "r")
    apiPerformanceHistory := []
    lastGiniCoefficient := none }

/-- C2: the claim says that after cleanup each trend window holds at most 50
entries.  `cleanup_old_data` applies only the 3600-second age filter to the
two trend windows; with 51 entries all younger than the horizon, all 51
survive cleanup. -/
theorem claim_C2_counterexample :
    (cleanupOldData c2OverfullState 0).eipChangesHistory.length = 51 ∧
    (cleanupOldData c2OverfullState 0).cpicRecoveriesHistory.length = 51 ∧
    50 < (cleanupOldData c2OverfullState 0).cpicRecoveriesHistory.length := by
  have h1 : (cleanupOldData c2OverfullState 0).eipChangesHistory
      = c2OverfullState.eipChangesHistory := by
    show c2OverfullState.eipChangesHistory.filter
        (fun ev => (0 : ℚ) - ev.timestamp < 3600)
      = c2OverfullState.eipChangesHistory
    apply List.filter_eq_self.mpr
    intro a ha
    have hae : a = ChangeEvent.mk 0 1 := List.eq_of_mem_replicate ha
    subst hae
    simp only [decide_eq_true_eq]
    norm_num
  have h2 : (cleanupOldData c2OverfullState 0).cpicRecoveriesHistory
      = c2OverfullState.cpicRecoveriesHistory := by
    show c2OverfullState.cpicRecoveriesHistory.filter
        (fun r => (0 : ℚ) - r.timestamp < 3600)
      = c2OverfullState.cpicRecoveriesHistory
    apply List.filter_eq_self.mpr
    intro a ha
    have hae : a = RecoveryEvent.mk 0 "r" := List.eq_of_mem_replicate ha
    subst hae
    simp only [decide_eq_true_eq]
    norm_num
  refine ⟨?_, ?_, ?_⟩
  · rw [h1]
    simp [c2OverfullState]
  · rw [h2]
    simp [c2OverfullState]
  · rw [h2]
    simp [c2OverfullState]

/-- C2 amended: cleanup evicts every entry at least 3600 seconds old from
both trend windows and never lengthens them, but imposes no entry cap on
them; the 50-entry cap is applied only to the API-performance series, each
of which is at most 50 entries long after cleanup. -/
theorem claim_C2_amended :
    ∀ (st : CollectorState) (t : ℚ),
      (∀ ev ∈ (cleanupOldData st t).eipChangesHistory,
        t - ev.timestamp < 3600) ∧
      (∀ r ∈ (cleanupOldData st t).cpicRecoveriesHistory,
        t - r.timestamp < 3600) ∧
      (cleanupOldData st t).eipChangesHistory.length ≤
        st.eipChangesHistory.length ∧
      (cleanupOldData st t).cpicRecoveriesHistory.length ≤
        st.cpicRecoveriesHistory.length ∧
      (∀ p ∈ (cleanupOldData st t).apiPerformanceHistory, p.2.length ≤ 50 ∨
        p.2.length ≤ (dictGet st.apiPerformanceHistory p.1).elim 0 List.length) := by
  intro st t
  refine ⟨?_, ?_, ?_, ?_, ?_⟩
  · intro ev hev
    have := (List.mem_filter.mp hev).2
    simpa using this
  · intro r hr
    have := (List.mem_filter.mp hr).2
    simpa using this
  · exact List.length_filter_le _ _
  · exact List.length_filter_le _ _
  · intro p hp
    rcases List.mem_map.mp hp with ⟨q, hq, hfq⟩
    by_cases hlen : 50 < q.2.length
    · left
      rw [← hfq]
      simp only [hlen, if_true]
      rw [List.length_drop]
      omega
    · left
      rw [← hfq]
      simp only [hlen, if_false]
      omega

/-- C2 amended witness state: one fresh entry per window. -/
def c2WitnessState : CollectorState :=
  { previousEipAssigned := none
    eipChangesHistory := [ChangeEvent.mk 0 1]
    cpicRecoveriesHistory := [RecoveryEvent.mk 0 "x"]
    apiPerformanceHistory := [("eip_get", [])]
    lastGiniCoefficient := none }

/-- Witness for the C2 amended theorem at a concrete state and time. -/
theorem claim_C2_amended_witness : (0 : ℚ) - (ChangeEvent.mk 0 1).timestamp < 3600 := by
  have hd : (decide ((0 : ℚ) - (ChangeEvent.mk 0 1).timestamp < 3600)) = true := by
    simp only [decide_eq_true_eq]
    norm_num
  have hclean : (cleanupOldData c2WitnessState 0).eipChangesHistory
      = [ChangeEvent.mk 0 1] := by
    show List.filter (fun ev => (0 : ℚ) - ev.timestamp < 3600)
        [ChangeEvent.mk 0 1] = [ChangeEvent.mk 0 1]
    rw [List.filter_cons, if_pos (by norm_num)]
    rfl
  exact (claim_C2_amended c2WitnessState 0).1 (ChangeEvent.mk 0 1)
    (hclean ▸ List.mem_singleton.mpr rfl)

/-! ### Claim C3 — fairness bonus dead code -/

/-- C3 failing input: one resource with both requested IPs bound, one to each
of the two eligible nodes — a perfectly even distribution. -/
def c3EipData : EipData :=
  EipData.mk [EipItem.mk "ns" "r" ["ip1", "ip2"]
    [EipStatusItem.mk "ip1" "" "n1", EipStatusItem.mk "ip2" "" "n2"]]

/-- C3: the claim (and the spec) say the health score adds a fairness bonus
keyed on the previous cycle's Gini value (+15 below 0.1, +10 below 0.3).
The bonus branch in `calculate_health_scores` is guarded by
`hasattr(self, 'last_gini_coefficient')`, but no statement in the program
ever assigns that attribute, so the branch is dead: the aggregation pass
leaves the attribute state unchanged (first conjunct), and on a concrete
two-cycle run whose first cycle publishes Gini = 0 (< 0.1) the second
cycle's health score is 70 — the bonus-less value — not the claimed 85. -/
theorem claim_C3_code_bug :
    (∀ (st : CollectorState) (e : EipData) (c : CpicData)
       (nodes : List String) (t : ℚ),
       (processAllMetricsOptimized st e c nodes t).1.lastGiniCoefficient
         = st.lastGiniCoefficient) ∧
    (processAllMetricsOptimized initialState c3EipData (CpicData.mk [])
        ["n1", "n2"] 0).2.giniOut = some 0 ∧
    (processAllMetricsOptimized initialState c3EipData (CpicData.mk [])
        ["n1", "n2"] 0).1.lastGiniCoefficient = none ∧
    (processAllMetricsOptimized
        (processAllMetricsOptimized initialState c3EipData (CpicData.mk [])
          ["n1", "n2"] 0).1 c3EipData (CpicData.mk [])
        ["n1", "n2"] 0).2.healthScore = 70 := by
  refine ⟨fun st e c nodes t => rfl, ?_, rfl, ?_⟩
  · rw [processAll_giniOut]
    have hcounts : (nodeEipCounts c3EipData ["n1", "n2"]).map Prod.snd
        = [1, 1] := by decide
    rw [hcounts]
    have hsort : ([1, 1] : List ℕ).insertionSort (· ≤ ·) = [1, 1] := by decide
    simp only [calculateDistributionGini, hsort]
    norm_num [giniTermSum]
  · rw [processAll_healthScore]
    have hcfg : configuredCount c3EipData = 2 := by decide
    have hasg : assignedCount c3EipData = 2 := by decide
    have hgini : (processAllMetricsOptimized initialState c3EipData
        (CpicData.mk []) ["n1", "n2"] 0).1.lastGiniCoefficient = none := rfl
    rw [hcfg, hasg]
    simp only [calculateHealthScores, hgini]
    norm_num

/-! ### Claim C9 — mismatch detection is deterministic across cycles -/

/-- C9: re-running the aggregation pass on unchanged inputs — from the state
the first run produced, at any later wall-clock time — yields an identical
mismatch report: same total, same per-category counts, same per-IP
classification and same touched-resource map. -/
theorem claim_C9_idempotent :
    ∀ (st : CollectorState) (e : EipData) (c : CpicData)
      (nodes : List String) (t1 t2 : ℚ),
      (processAllMetricsOptimized
          (processAllMetricsOptimized st e c nodes t1).1 e c nodes
          t2).2.mismatches
        = (processAllMetricsOptimized st e c nodes t1).2.mismatches := by
  intro st e c nodes t1 t2
  rfl

/-! ### Claim C4 — utilization bounds -/

/-- C4: under the invariant that each resource's configured IP count is at
least its assigned-binding count, the published utilization percentage of
every aggregation pass lies in [0, 100] whenever the global configured count
is positive, and equals exactly 0 when the configured count is 0. -/
theorem claim_C4_utilization :
    ∀ (st : CollectorState) (e : EipData) (c : CpicData)
      (nodes : List String) (t : ℚ),
      (∀ item ∈ e.items, assignedOfItem item ≤ item.egressIPs.length) →
      (0 < configuredCount e →
        0 ≤ (processAllMetricsOptimized st e c nodes
              t).2.eipUtilizationPercent ∧
        (processAllMetricsOptimized st e c nodes t).2.eipUtilizationPercent
          ≤ 100) ∧
      (configuredCount e = 0 →
        (processAllMetricsOptimized st e c nodes t).2.eipUtilizationPercent
          = 0) := by
  intro st e c nodes t hinv
  rw [processAll_utilization]
  have hle : assignedCount e ≤ configuredCount e := by
    unfold assignedCount configuredCount
    exact List.sum_le_sum hinv
  constructor
  · intro hpos
    unfold utilizationPercent
    rw [if_pos hpos]
    constructor
    · positivity
    · have hc : (0 : ℚ) < (configuredCount e : ℚ) := by
        exact_mod_cast hpos
      have hca : (assignedCount e : ℚ) ≤ (configuredCount e : ℚ) := by
        exact_mod_cast hle
      have hdiv : (assignedCount e : ℚ) / (configuredCount e : ℚ) ≤ 1 :=
        (div_le_one hc).mpr hca
      nlinarith
  · intro hzero
    unfold utilizationPercent
    rw [if_neg (by omega)]

/-- C4 witness input: one resource, two configured IPs, one bound. -/
def c4EipData : EipData :=
  EipData.mk [EipItem.mk "ns" "w" ["ipA", "ipB"]
    [EipStatusItem.mk "ipA" "" "n1"]]

/-- Witness for the C4 theorem at a concrete input. -/
theorem claim_C4_witness :
    0 ≤ (processAllMetricsOptimized initialState c4EipData (CpicData.mk [])
          ["n1"] 0).2.eipUtilizationPercent ∧
    (processAllMetricsOptimized initialState c4EipData (CpicData.mk [])
        ["n1"] 0).2.eipUtilizationPercent ≤ 100 :=
  (claim_C4_utilization initialState c4EipData (CpicData.mk []) ["n1"] 0
    (by decide)).1 (by decide)

/-! ### Claim C10 — recovery counting grows on repeated cycles -/

/-- The age predicate of `cleanup_old_data` and the window predicate of the
final recovery filter keep the same entries. -/
theorem recovery_filter_equiv (l : List RecoveryEvent) (t : ℚ) :
    l.filter (fun r => t - r.timestamp < 3600)
      = l.filter (fun r => t - 3600 < r.timestamp) := by
  apply List.filter_congr
  intro r _
  simp only [decide_eq_decide]
  constructor <;> intro h <;> linarith

/-- Re-filtering an already windowed recovery list changes nothing. -/
theorem filter_window_idem (l : List RecoveryEvent) (t : ℚ) :
    (l.filter (fun r => t - 3600 < r.timestamp)).filter
        (fun r => t - 3600 < r.timestamp)
      = l.filter (fun r => t - 3600 < r.timestamp) :=
  List.filter_eq_self.mpr (fun _ ha => (List.mem_filter.mp ha).2)

/-- Recovery events stamped at the current instant always pass the
one-hour window filter. -/
theorem filter_fresh_events (c : CpicData) (t : ℚ) :
    ((recoveryItems c).map
        (fun i => RecoveryEvent.mk t (cpicResourceName i))).filter
        (fun r => t - 3600 < r.timestamp)
      = (recoveryItems c).map
          (fun i => RecoveryEvent.mk t (cpicResourceName i)) := by
  apply List.filter_eq_self.mpr
  intro a ha
  rcases List.mem_map.mp ha with ⟨i, _, hfi⟩
  subst hfi
  simp only [decide_eq_true_eq]
  linarith

/-- The recovery history `cleanup_old_data` leaves behind. -/
theorem cleanup_recoveries (st : CollectorState) (t : ℚ) :
    (cleanupOldData st t).cpicRecoveriesHistory
      = st.cpicRecoveriesHistory.filter
          (fun r => t - 3600 < r.timestamp) := by
  show st.cpicRecoveriesHistory.filter (fun r => t - r.timestamp < 3600) = _
  exact recovery_filter_equiv _ t

/-- The recovery history after one aggregation pass: the windowed old
entries followed by one fresh event per qualifying CPIC resource. -/
theorem processAll_recoveries_state (st : CollectorState) (e : EipData)
    (c : CpicData) (nodes : List String) (t : ℚ) :
    (processAllMetricsOptimized st e c nodes t).1.cpicRecoveriesHistory
      = st.cpicRecoveriesHistory.filter (fun r => t - 3600 < r.timestamp)
        ++ (recoveryItems c).map
            (fun i => RecoveryEvent.mk t (cpicResourceName i)) := by
  show (st.cpicRecoveriesHistory ++ (recoveryItems c).map
      (fun i => RecoveryEvent.mk t (cpicResourceName i))).filter
      (fun r => t - 3600 < r.timestamp) = _
  rw [List.filter_append, filter_fresh_events]

/-- The published `cpic_recoveries_last_hour` gauge of one pass. -/
theorem processAll_recoveriesLastHour (st : CollectorState) (e : EipData)
    (c : CpicData) (nodes : List String) (t : ℚ) :
    (processAllMetricsOptimized st e c nodes t).2.recoveriesLastHour
      = (st.cpicRecoveriesHistory.filter
          (fun r => t - 3600 < r.timestamp)).length
        + (recoveryItems c).length := by
  show ((st.cpicRecoveriesHistory ++ (recoveryItems c).map
      (fun i => RecoveryEvent.mk t (cpicResourceName i))).filter
      (fun r => t - 3600 < r.timestamp)).length = _
  rw [List.filter_append, filter_fresh_events, List.length_append,
      List.length_map]

/-- Windowed recovery count after `m` identical cycles. -/
theorem iterateCycles_recoveries (st : CollectorState) (e : EipData)
    (c : CpicData) (nodes : List String) (t : ℚ) (m : ℕ) :
    ((iterateCycles st e c nodes t m).cpicRecoveriesHistory.filter
        (fun r => t - 3600 < r.timestamp)).length
      = (st.cpicRecoveriesHistory.filter
          (fun r => t - 3600 < r.timestamp)).length
        + m * (recoveryItems c).length := by
  induction m with
  | zero =>
      show ((st.cpicRecoveriesHistory.filter
          (fun r => t - 3600 < r.timestamp)).length = _)
      omega
  | succ m ih =>
      have hstep : iterateCycles st e c nodes t (m + 1)
          = (processAllMetricsOptimized
              (cleanupOldData (iterateCycles st e c nodes t m) t) e c nodes
              t).1 := rfl
      rw [hstep, processAll_recoveries_state, cleanup_recoveries,
          filter_window_idem, List.filter_append, filter_window_idem,
          filter_fresh_events, List.length_append, List.length_map, ih]
      ring

/-- C10: recovery counting is cumulative rather than idempotent.  Every
cycle over an unchanged CPIC payload appends one fresh recovery event per
resource whose latest condition is a success immediately preceded by an
error, so after `m + 1` identical cycles (all within one hour) the published
recoveries-last-hour count has grown by `(m + 1)` times the number of such
resources over the windowed starting history. -/
theorem claim_C10_recovery_growth :
    ∀ (st : CollectorState) (e : EipData) (c : CpicData)
      (nodes : List String) (t : ℚ) (m : ℕ),
      (processAllMetricsOptimized
          (cleanupOldData (iterateCycles st e c nodes t m) t) e c nodes
          t).2.recoveriesLastHour
        = (st.cpicRecoveriesHistory.filter
            (fun r => t - 3600 < r.timestamp)).length
          + (m + 1) * (recoveryItems c).length := by
  intro st e c nodes t m
  rw [processAll_recoveriesLastHour, cleanup_recoveries, filter_window_idem,
      iterateCycles_recoveries]
  ring

/-! ### Claim C8 — criticality detection -/

/-- The status scan of `detect_critical_eips` computes exactly the pair
(every node-bound IP is mismatched, some entry is node-bound) — the early
`break` does not change the outcome. -/
theorem criticalScan_eq (mm : Mismatches) (l : List EipStatusItem) :
    criticalScan mm l
      = (l.all (fun s => s.node == "" ||
          (dictGet mm.mismatchByIp (ipOfStatus s)).isSome),
         l.any (fun s => s.node != "")) := by
  induction l with
  | nil => rfl
  | cons s rest ih =>
      by_cases hn : s.node = ""
      · simp [criticalScan, hn, ih]
      · by_cases hd : dictGet mm.mismatchByIp (ipOfStatus s) = none
        · simp [criticalScan, hn, hd]
        · simp [criticalScan, hn, hd, ih, Option.isSome_iff_ne_none]

/-- One resource is critical exactly when every node-bound entry of its
status list carries a mismatched IP (vacuously so for resources with no
status bindings or none with a node). -/
theorem isCriticalItem_eq (mm : Mismatches) (item : EipItem) :
    isCriticalItem mm item
      = item.statusItems.all (fun s => s.node == "" ||
          (dictGet mm.mismatchByIp (ipOfStatus s)).isSome) := by
  unfold isCriticalItem
  rw [criticalScan_eq]
  by_cases he : item.statusItems.isEmpty
  · have hnil : item.statusItems = [] := by
      simpa using he
    simp [hnil]
  · simp only [he, if_false]
    by_cases ha : item.statusItems.any (fun s => s.node != "") = true
    · simp [ha]
    · have hall : item.statusItems.all (fun s => s.node == "" ||
          (dictGet mm.mismatchByIp (ipOfStatus s)).isSome) = true := by
        rw [List.all_eq_true]
        intro s hs
        have hnode : (s.node != "") = false := by
          rcases Bool.eq_false_or_eq_true (s.node != "") with ht | hf
          · exact absurd (List.any_eq_true.mpr ⟨s, hs, ht⟩) ha
          · exact hf
        have : s.node == "" := by
          simpa using hnode
        simp [this]
      simp [ha, hall]

/-- Folding `acc + 1` over the items that satisfy `p` counts them. -/
theorem foldl_count_aux {α : Type} (p : α → Bool) (l : List α) (acc : ℕ) :
    l.foldl (fun a x => if p x then a + 1 else a) acc = acc + l.countP p := by
  induction l generalizing acc with
  | nil => simp
  | cons x rest ih =>
      rw [List.foldl_cons, List.countP_cons, ih]
      by_cases hp : p x = true
      · simp [hp]
        omega
      · simp [hp]

/-- `detect_critical_eips` counts the critical resources. -/
theorem detectCriticalEips_countP (e : EipData) (mm : Mismatches) :
    detectCriticalEips e mm = e.items.countP (isCriticalItem mm) := by
  unfold detectCriticalEips
  rw [foldl_count_aux]
  omega

/-- C8: a resource is counted as critical exactly when it has no status
bindings at all (including the case where every status entry lacks a node)
or when every one of its node-bound IPs appears in the mismatch set; in
particular a resource with zero status bindings is always counted,
whatever the mismatch report. -/
theorem claim_C8_critical :
    (∀ (e : EipData) (mm : Mismatches),
       detectCriticalEips e mm
         = e.items.countP (fun item =>
             item.statusItems.all (fun s =>
               s.node == "" ||
                 (dictGet mm.mismatchByIp (ipOfStatus s)).isSome))) ∧
    (∀ (mm : Mismatches) (item : EipItem),
       item.statusItems = [] → isCriticalItem mm item = true) := by
  constructor
  · intro e mm
    rw [detectCriticalEips_countP]
    have hfun : isCriticalItem mm = fun item =>
        item.statusItems.all (fun s => s.node == "" ||
          (dictGet mm.mismatchByIp (ipOfStatus s)).isSome) :=
      funext (isCriticalItem_eq mm)
    rw [hfun]
  · intro mm item h
    unfold isCriticalItem
    simp [h]

/-- Witness for the C8 theorem: a resource with no status bindings is
critical under the empty mismatch report. -/
theorem claim_C8_witness :
    isCriticalItem (Mismatches.mk 0 0 0 0 [] [])
      (EipItem.mk "ns" "empty" ["ip1"] []) = true :=
  claim_C8_critical.2 (Mismatches.mk 0 0 0 0 [] [])
    (EipItem.mk "ns" "empty" ["ip1"] []) rfl

/-! ### Claim C6 — Gini coefficient bounds -/

/-- The positional Gini sum is bounded by `B` times the list total whenever
`B` bounds the absolute coefficient at every visited position. -/
theorem giniTermSum_bound (B : ℤ) :
    ∀ (l : List ℕ) (n i : ℕ),
      (∀ j : ℕ, i ≤ j → j < i + l.length →
        |2 * ((j : ℤ) + 1) - (n : ℤ) - 1| ≤ B) →
      |giniTermSum n i l| ≤ B * (l.sum : ℤ) := by
  intro l
  induction l with
  | nil =>
      intro n i _
      simp [giniTermSum]
  | cons c cs ih =>
      intro n i h
      have hcoef : |2 * ((i : ℤ) + 1) - (n : ℤ) - 1| ≤ B :=
        h i le_rfl (by simp)
      have hrest : |giniTermSum n (i + 1) cs| ≤ B * (cs.sum : ℤ) := by
        apply ih
        intro j hj1 hj2
        refine h j (by omega) ?_
        simp only [List.length_cons]
        omega
      calc |giniTermSum n i (c :: cs)|
          = |(2 * ((i : ℤ) + 1) - (n : ℤ) - 1) * (c : ℤ)
              + giniTermSum n (i + 1) cs| := rfl
        _ ≤ |(2 * ((i : ℤ) + 1) - (n : ℤ) - 1) * (c : ℤ)|
              + |giniTermSum n (i + 1) cs| := abs_add _ _
        _ = |2 * ((i : ℤ) + 1) - (n : ℤ) - 1| * (c : ℤ)
              + |giniTermSum n (i + 1) cs| := by
              rw [abs_mul, abs_of_nonneg (by positivity : (0 : ℤ) ≤ (c : ℤ))]
        _ ≤ B * (c : ℤ) + B * (cs.sum : ℤ) := by
              apply add_le_add
              · exact mul_le_mul_of_nonneg_right hcoef (by positivity)
              · exact hrest
        _ = B * ((c :: cs).sum : ℤ) := by
              push_cast [List.sum_cons]
              ring

/-- Closed form of the positional Gini sum over a constant list. -/
theorem giniTermSum_replicate (n a : ℕ) :
    ∀ (m i : ℕ),
      giniTermSum n i (List.replicate m a)
        = (a : ℤ) * (m : ℤ) * (2 * (i : ℤ) + (m : ℤ) - (n : ℤ)) := by
  intro m
  induction m with
  | zero =>
      intro i
      simp [giniTermSum]
  | succ m ih =>
      intro i
      show (2 * ((i : ℤ) + 1) - (n : ℤ) - 1) * (a : ℤ)
            + giniTermSum n (i + 1) (List.replicate m a)
          = (a : ℤ) * ((m : ℕ) + 1 : ℕ) * (2 * (i : ℤ) + ((m : ℕ) + 1 : ℕ) - n)
      rw [ih (i + 1)]
      push_cast
      ring

/-- C6: whenever `calculate_distribution_metrics` publishes a Gini value, it
lies in [0, 1]; and it is 0 when all per-node counts are equal. -/
theorem claim_C6_gini :
    ∀ (counts : List ℕ) (g : ℚ),
      calculateDistributionGini counts = some g →
      0 ≤ g ∧ g ≤ 1 ∧ ((∀ a ∈ counts, ∀ b ∈ counts, a = b) → g = 0) := by
  intro counts g hg
  by_cases hne : counts.isEmpty
  · exfalso
    unfold calculateDistributionGini at hg
    rw [if_pos hne] at hg
    exact Option.noConfusion hg
  · by_cases hsum : 0 < counts.sum
    · have hval : calculateDistributionGini counts
          = some |((giniTermSum counts.length 0
                (counts.insertionSort (· ≤ ·)) : ℚ)
              / ((counts.length : ℚ) * (counts.sum : ℚ)))| := by
        unfold calculateDistributionGini
        rw [if_neg hne, if_pos hsum]
        simp only [hsum, if_true]
      rw [hval] at hg
      have hgv : g = |((giniTermSum counts.length 0
            (counts.insertionSort (· ≤ ·)) : ℚ)
          / ((counts.length : ℚ) * (counts.sum : ℚ)))| := by
        exact (Option.some.injEq _ _).mp hg.symm
      have hnpos : 0 < counts.length := by
        cases counts with
        | nil => simp at hne
        | cons a l => simp
      have hlen : (counts.insertionSort (· ≤ ·)).length = counts.length :=
        List.length_insertionSort _ _
      have hsrtSum : (counts.insertionSort (· ≤ ·)).sum = counts.sum :=
        (List.perm_insertionSort _ _).sum_eq
      have hbound : |giniTermSum counts.length 0
            (counts.insertionSort (· ≤ ·))|
          ≤ ((counts.length : ℤ) - 1) * (counts.sum : ℤ) := by
        rw [← hsrtSum]
        apply giniTermSum_bound
        intro j hj0 hjlt
        rw [hlen] at hjlt
        rw [abs_le]
        constructor <;> omega
      have hboundn : |giniTermSum counts.length 0
            (counts.insertionSort (· ≤ ·))|
          ≤ (counts.length : ℤ) * (counts.sum : ℤ) := by
        refine le_trans hbound ?_
        have : (0 : ℤ) ≤ (counts.sum : ℤ) := by positivity
        nlinarith
      have hden : (0 : ℚ) < (counts.length : ℚ) * (counts.sum : ℚ) := by
        have h1 : (0 : ℚ) < (counts.length : ℚ) := by exact_mod_cast hnpos
        have h2 : (0 : ℚ) < (counts.sum : ℚ) := by exact_mod_cast hsum
        positivity
      refine ⟨by rw [hgv]; exact abs_nonneg _, ?_, ?_⟩
      · rw [hgv, abs_div, abs_of_pos hden, div_le_one hden]
        have : |((giniTermSum counts.length 0
              (counts.insertionSort (· ≤ ·)) : ℤ) : ℚ)|
            ≤ (((counts.length : ℤ) * (counts.sum : ℤ) : ℤ) : ℚ) := by
          rw [← Int.cast_abs]
          exact_mod_cast hboundn
        calc |((giniTermSum counts.length 0
              (counts.insertionSort (· ≤ ·)) : ℤ) : ℚ)|
            ≤ (((counts.length : ℤ) * (counts.sum : ℤ) : ℤ) : ℚ) := this
          _ = (counts.length : ℚ) * (counts.sum : ℚ) := by
              rw [Int.cast_mul, Int.cast_natCast, Int.cast_natCast]
      · intro hallEq
        cases hc : counts with
        | nil =>
            subst hc
            simp at hne
        | cons a l =>
            have hrep : counts = List.replicate counts.length a := by
              rw [List.eq_replicate_iff]
              refine ⟨rfl, ?_⟩
              intro b hb
              exact hallEq b hb a (by rw [hc]; exact List.mem_cons_self a l)
            have hsrep : counts.insertionSort (· ≤ ·)
                = List.replicate counts.length a := by
              rw [List.eq_replicate_iff]
              refine ⟨hlen, ?_⟩
              intro b hb
              have hbmem : b ∈ counts :=
                (List.perm_insertionSort _ _).mem_iff.mp hb
              exact hallEq b hbmem a (by rw [hc]; exact List.mem_cons_self a l)
            have hzero : giniTermSum counts.length 0
                (counts.insertionSort (· ≤ ·)) = 0 := by
              rw [hsrep, giniTermSum_replicate]
              ring
            rw [hgv, hzero]
            simp
    · have hval : calculateDistributionGini counts = some 0 := by
        unfold calculateDistributionGini
        rw [if_neg hne, if_neg hsum]
      rw [hval] at hg
      have hg0 : g = 0 := (Option.some.injEq _ _).mp hg.symm
      subst hg0
      exact ⟨le_refl 0, by norm_num, fun _ => rfl⟩

/-! ### Claim C7 — missing_in_eip classification -/

/-- Keys of a dict after a Python-style insert. -/
theorem keys_dictInsert {α : Type} (m : List (String × α)) (k : String)
    (v : α) :
    (dictInsert m k v).map Prod.fst
      = if m.any (fun p => p.1 = k) then m.map Prod.fst
        else m.map Prod.fst ++ [k] := by
  unfold dictInsert
  split
  · rw [List.map_map]
    apply List.map_congr_left
    intro p _
    by_cases hp : p.1 = k
    · simp [hp]
    · simp [hp]
  · simp

/-- Python-style dict insertion keeps the key list duplicate-free. -/
theorem nodup_keys_dictInsert {α : Type} (m : List (String × α)) (k : String)
    (v : α) (h : (m.map Prod.fst).Nodup) :
    ((dictInsert m k v).map Prod.fst).Nodup := by
  rw [keys_dictInsert]
  split
  · exact h
  · next hany =>
      have hk : k ∉ m.map Prod.fst := by
        intro hmem
        rcases List.mem_map.mp hmem with ⟨p, hp, hpk⟩
        exact hany (List.any_eq_true.mpr ⟨p, hp, by simp [hpk]⟩)
      simp [List.nodup_append, h, hk]

/-- The CPIC map builder keeps keys duplicate-free from any start. -/
theorem nodup_keys_cpic_aux (items : List CpicItem) :
    ∀ (m : List (String × String)), (m.map Prod.fst).Nodup →
      ((items.foldl cpicIpToNodeStep m).map Prod.fst).Nodup := by
  induction items with
  | nil =>
      intro m h
      exact h
  | cons item rest ih =>
      intro m h
      rw [List.foldl_cons]
      apply ih
      unfold cpicIpToNodeStep
      split
      · split
        · exact nodup_keys_dictInsert _ _ _ h
        · exact h
      · exact h

/-- The CPIC IP-to-node map has duplicate-free keys: each reconciliation IP
is processed exactly once by the detection loop. -/
theorem nodup_keys_cpicIpToNode (c : CpicData) :
    ((cpicIpToNode c).map Prod.fst).Nodup :=
  nodup_keys_cpic_aux c.items [] (by simp)

/-- A detection step writes only the key of its own entry into
`mismatch_by_ip`. -/
theorem detectStep_byIp_other (a b s : List (String × String))
    (rc : List (String × ℕ)) (an : ℕ) (mm : Mismatches)
    (p : String × String) (ip : String) (h : p.1 ≠ ip) :
    dictGet (detectStep a b s rc an mm p).mismatchByIp ip
      = dictGet mm.mismatchByIp ip := by
  unfold detectStep
  split
  · split
    · exact dictGet_dictInsert_ne _ _ _ _ (fun hh => h hh.symm)
    · rfl
  · split
    · split
      · exact dictGet_dictInsert_ne _ _ _ _ (fun hh => h hh.symm)
      · rfl
    · rfl

/-- Running the detection loop over entries whose keys all differ from `ip`
leaves the `ip` classification untouched. -/
theorem detectLoop_byIp_frozen (a b s : List (String × String))
    (rc : List (String × ℕ)) (an : ℕ) :
    ∀ (entries : List (String × String)) (mm : Mismatches) (ip : String),
      (∀ p ∈ entries, p.1 ≠ ip) →
      dictGet ((entries.foldl (detectStep a b s rc an) mm).mismatchByIp) ip
        = dictGet mm.mismatchByIp ip := by
  intro entries
  induction entries with
  | nil =>
      intro mm ip _
      rfl
  | cons p rest ih =>
      intro mm ip h
      rw [List.foldl_cons,
          ih _ _ (fun q hq => h q (List.mem_cons_of_mem p hq)),
          detectStep_byIp_other a b s rc an mm p ip
            (h p (List.mem_cons_self p rest))]

/-- The classification a detection step records for its own entry when the
IP has no status binding: `missing_in_eip` exactly when the owner is known
and below the eligible-node count, otherwise nothing new. -/
theorem detectStep_byIp_self_none (a b s : List (String × String))
    (rc : List (String × ℕ)) (an : ℕ) (mm : Mismatches)
    (p : String × String) (hnone : dictGet a p.1 = none) :
    dictGet (detectStep a b s rc an mm p).mismatchByIp p.1
      = if resolvedResource b s p.1 ≠ "unknown" ∧
           (dictGet rc (resolvedResource b s p.1)).getD 0 < an
        then some "missing_in_eip"
        else dictGet mm.mismatchByIp p.1 := by
  unfold detectStep
  split
  · next en heq =>
      rw [hnone] at heq
      exact Option.noConfusion heq
  · next heq =>
      by_cases h1 : resolvedResource b s p.1 ≠ "unknown"
      · by_cases h2 : (dictGet rc (resolvedResource b s p.1)).getD 0 < an
        · rw [if_pos h1, if_pos h2, if_pos ⟨h1, h2⟩]
          exact dictGet_dictInsert_self _ _ _
        · rw [if_pos h1, if_neg h2, if_neg (by tauto)]
      · rw [if_neg h1, if_neg (by tauto)]

/-- The second detection loop (missing-in-CPIC) writes only keys of the EIP
status map. -/
theorem missingCpicStep_byIp_other (cpicMap eipIpToRes :
    List (String × String)) (mm : Mismatches) (p : String × String)
    (ip : String) (h : p.1 ≠ ip) :
    dictGet (missingCpicStep cpicMap eipIpToRes mm p).mismatchByIp ip
      = dictGet mm.mismatchByIp ip := by
  unfold missingCpicStep
  split
  · exact dictGet_dictInsert_ne _ _ _ _ (fun hh => h hh.symm)
  · rfl

/-- Running the missing-in-CPIC loop over entries whose keys all differ
from `ip` leaves the `ip` classification untouched. -/
theorem missingCpicLoop_byIp_frozen (cpicMap eipIpToRes :
    List (String × String)) :
    ∀ (entries : List (String × String)) (mm : Mismatches) (ip : String),
      (∀ p ∈ entries, p.1 ≠ ip) →
      dictGet ((entries.foldl (missingCpicStep cpicMap eipIpToRes)
          mm).mismatchByIp) ip
        = dictGet mm.mismatchByIp ip := by
  intro entries
  induction entries with
  | nil =>
      intro mm ip _
      rfl
  | cons p rest ih =>
      intro mm ip h
      rw [List.foldl_cons,
          ih _ _ (fun q hq => h q (List.mem_cons_of_mem p hq)),
          missingCpicStep_byIp_other cpicMap eipIpToRes mm p ip
            (h p (List.mem_cons_self p rest))]

/-- C7 amended: an IP known to reconciliation (with a node) that is not
bound in any assignment status is classified `missing_in_eip` exactly when
its owning resource can be identified (from status bindings or from
`spec.egressIPs`) and that resource's bound-IP count is strictly below the
eligible-node count; at or above that count — not only at equality — and
when no owner is found, no mismatch is recorded for the IP. -/
theorem claim_C7_amended :
    ∀ (e : EipData) (c : CpicData) (an : ℕ) (ip node : String),
      dictGet (cpicIpToNode c) ip = some node →
      dictGet (buildEipMaps e).1 ip = none →
      (dictGet (detectMismatches e c an).mismatchByIp ip
          = some "missing_in_eip"
        ↔ (resolvedResource (buildEipMaps e).2.1 (ipToResourceFromSpec e) ip
              ≠ "unknown" ∧
           (dictGet (buildEipMaps e).2.2
              (resolvedResource (buildEipMaps e).2.1
                (ipToResourceFromSpec e) ip)).getD 0 < an)) := by
  intro e c an ip node hcpic hnone
  have hfind := hcpic
  unfold dictGet at hfind
  cases hq : (cpicIpToNode c).find? (fun p => p.1 = ip) with
  | none =>
      rw [hq] at hfind
      exact absurd hfind (by simp)
  | some q =>
      rw [hq] at hfind
      have hqk : q.1 = ip := by simpa using List.find?_some hq
      have hqmem : q ∈ cpicIpToNode c := List.mem_of_find?_eq_some hq
      rcases List.append_of_mem hqmem with ⟨l1, l2, hsplit⟩
      have hnodup : ((cpicIpToNode c).map Prod.fst).Nodup :=
        nodup_keys_cpicIpToNode c
      rw [hsplit] at hnodup
      rw [List.map_append, List.map_cons] at hnodup
      have hmid := List.nodup_middle.mp hnodup
      have hknot : q.1 ∉ l1.map Prod.fst ++ l2.map Prod.fst :=
        (List.nodup_cons.mp hmid).1
      have hl1 : ∀ p ∈ l1, p.1 ≠ ip := by
        intro p hp hpk
        exact hknot (by
          rw [List.mem_append]
          exact Or.inl (List.mem_map.mpr ⟨p, hp, by rw [hpk, hqk]⟩))
      have hl2 : ∀ p ∈ l2, p.1 ≠ ip := by
        intro p hp hpk
        exact hknot (by
          rw [List.mem_append]
          exact Or.inr (List.mem_map.mpr ⟨p, hp, by rw [hpk, hqk]⟩))
      have heipKeys : ∀ p ∈ (buildEipMaps e).1, p.1 ≠ ip :=
        (dictGet_eq_none_iff _ _).mp hnone
      have hbody : detectMismatches e c an
          = ((buildEipMaps e).1).foldl
              (missingCpicStep (cpicIpToNode c) (buildEipMaps e).2.1)
              ((cpicIpToNode c).foldl
                (detectStep (buildEipMaps e).1 (buildEipMaps e).2.1
                  (ipToResourceFromSpec e) (buildEipMaps e).2.2 an)
                (Mismatches.mk 0 0 0 0 [] [])) := rfl
      rw [hbody,
          missingCpicLoop_byIp_frozen _ _ _ _ _ heipKeys,
          hsplit, List.foldl_append, List.foldl_cons,
          detectLoop_byIp_frozen _ _ _ _ _ l2 _ _ hl2]
      have hself := detectStep_byIp_self_none (buildEipMaps e).1
        (buildEipMaps e).2.1 (ipToResourceFromSpec e) (buildEipMaps e).2.2 an
        ((l1.foldl (detectStep (buildEipMaps e).1 (buildEipMaps e).2.1
          (ipToResourceFromSpec e) (buildEipMaps e).2.2 an)
          (Mismatches.mk 0 0 0 0 [] []))) q (by rw [hqk]; exact hnone)
      rw [hqk] at hself
      rw [hself, detectLoop_byIp_frozen _ _ _ _ _ l1 _ _ hl1]
      by_cases hcond : resolvedResource (buildEipMaps e).2.1
          (ipToResourceFromSpec e) ip ≠ "unknown" ∧
          (dictGet (buildEipMaps e).2.2
            (resolvedResource (buildEipMaps e).2.1
              (ipToResourceFromSpec e) ip)).getD 0 < an
      · rw [if_pos hcond]
        simp [hcond]
      · rw [if_neg hcond]
        constructor
        · intro hfalse
          exact absurd hfalse (by simp [dictGet])
        · intro hcond2
          exact absurd hcond2 hcond

/-- C7 counterexample EIP payload: resource `ns/r` requests three IPs and
has two of them bound (both to `nodeA`); `10.0.0.3` is unbound. -/
def c7EipData : EipData :=
  EipData.mk [EipItem.mk "ns" "r" ["10.0.0.1", "10.0.0.2", "10.0.0.3"]
    [EipStatusItem.mk "10.0.0.1" "" "nodeA",
     EipStatusItem.mk "10.0.0.2" "" "nodeA"]]

/-- C7 counterexample CPIC payload: all three IPs are reconciled to
`nodeA`. -/
def c7CpicData : CpicData :=
  CpicData.mk [CpicItem.mk "10.0.0.1" "nodeA" "" [],
               CpicItem.mk "10.0.0.2" "nodeA" "" [],
               CpicItem.mk "10.0.0.3" "nodeA" "" []]

/-- C7: the claim says an unbound reconciliation IP escapes the
`missing_in_eip` classification only when the owner's bound count *equals*
the eligible-node count.  With one eligible node, `10.0.0.3` is known to
reconciliation, unbound in assignment status, and its owner `ns/r` has
bound count 2 ≠ 1 — yet the code records no mismatch, because its test is
`assigned_count < available_nodes` (suppression on ≥, not only =). -/
theorem claim_C7_counterexample :
    dictGet (cpicIpToNode c7CpicData) "10.0.0.3" = some "nodeA" ∧
    dictGet (buildEipMaps c7EipData).1 "10.0.0.3" = none ∧
    resolvedResource (buildEipMaps c7EipData).2.1
      (ipToResourceFromSpec c7EipData) "10.0.0.3" = "ns/r" ∧
    (dictGet (buildEipMaps c7EipData).2.2 "ns/r").getD 0 = 2 ∧
    (2 : ℕ) ≠ 1 ∧
    dictGet (detectMismatches c7EipData c7CpicData 1).mismatchByIp
      "10.0.0.3" = none ∧
    (detectMismatches c7EipData c7CpicData 1).missingInEip = 0 := by
  refine ⟨?_, ?_, ?_, ?_, ?_, ?_, ?_⟩ <;> decide

/-- C7 witness EIP payload: resource `ns/w` requests one IP, none bound. -/
def c7WitnessE : EipData :=
  EipData.mk [EipItem.mk "ns" "w" ["10.0.0.7"] []]

/-- C7 witness CPIC payload: the requested IP is reconciled to a node. -/
def c7WitnessC : CpicData :=
  CpicData.mk [CpicItem.mk "10.0.0.7" "nodeA" "" []]

/-- Witness for the C7 amended theorem: with one eligible node and a bound
count of 0 the unbound reconciliation IP is classified `missing_in_eip`. -/
theorem claim_C7_amended_witness :
    dictGet (detectMismatches c7WitnessE c7WitnessC 1).mismatchByIp
      "10.0.0.7" = some "missing_in_eip" :=
  (claim_C7_amended c7WitnessE c7WitnessC 1 "10.0.0.7" "nodeA"
    (by decide) (by decide)).mpr ⟨by decide, by decide⟩

/-- Witness for the C6 theorem at the concrete count list `[1, 2, 3]`. -/
theorem claim_C6_witness :
    0 ≤ (2 / 9 : ℚ) ∧ (2 / 9 : ℚ) ≤ 1 ∧
      ((∀ a ∈ [1, 2, 3], ∀ b ∈ [1, 2, 3], a = b) → (2 / 9 : ℚ) = 0) := by
  have hsort : ([1, 2, 3] : List ℕ).insertionSort (· ≤ ·) = [1, 2, 3] := by
    decide
  have hv : calculateDistributionGini [1, 2, 3] = some (2 / 9) := by
    simp only [calculateDistributionGini, hsort]
    norm_num [giniTermSum]
  exact claim_C6_gini [1, 2, 3] (2 / 9) hv

end EIP
